import Mathlib

/-!
Formal model of the go-restricted-runner execution/policy core.

Shallow embedding of `pkg/runner` (exec, landrun/Landlock, firejail,
sandbox-exec, docker backends): restriction-option data model, policy
compilation (Landlock rule construction and ABI selection, profile
rendering), per-call template substitution of stored option lists, and
the batch-execution result mapping.  External collaborators (the OS
process itself, temp-file I/O, the Landlock syscall, the template
engine of pkg/common) are modelled as explicit parameters or abstract
pure functions, as the spec directs.
-/

/-- ASCII fragment of Go `strings.TrimSpace`: the whitespace class used by
the repository's outputs (space, tab, newline, carriage return, vertical
tab, form feed). -/
def isGoSpace (c : Char) : Bool :=
  c = ' ' || c = '\t' || c = '\n' || c = '\r' || c = '\x0b' || c = '\x0c'

/-- Go `strings.TrimSpace`: drop leading and trailing whitespace. -/
def goTrimSpace (s : String) : String :=
  String.mk (((s.data.dropWhile isGoSpace).reverse.dropWhile isGoSpace).reverse)

/-- A substitution context, represented by the per-entry resolution function
it induces on strings.  Modelled from the spec: template-value substitution
is an excluded external collaborator, "treated as a pure function: given a
list of strings and a substitution context, return a list of strings with
placeholders resolved, best-effort — invalid placeholders pass through
unchanged" (spec §1); the function is applied entrywise. -/
abbrev Subst := String → String

/-- Modelled from the spec: `common.ProcessTemplateListFlexible`
(pkg/common/templates.go is not under src/; its contract is the spec's
excluded pure substitution function, applied to each entry of the list,
entries that fail to substitute passing through unchanged — which the
per-entry function `su` already accounts for). -/
def ProcessTemplateListFlexible (list : List String) (su : Subst) : List String :=
  list.map su

/-- `contains` from pkg/runner/util.go: whether a string slice contains a
specific string. -/
def sliceContains (slice : List String) (item : String) : Bool :=
  slice.any (fun s => s = item)

/-- Split a character list on '/' separators: the element decomposition
step of Go `path/filepath.Clean`. -/
def splitSlash : List Char → List (List Char)
  | [] => [[]]
  | c :: rest =>
    if c = '/' then [] :: splitSlash rest
    else
      match splitSlash rest with
      | [] => [[c]]
      | h :: t => (c :: h) :: t

/-- Go `path/filepath.Clean` (Unix, no volume name): fold the path
elements, skipping empty and "." elements and resolving ".." lexically. -/
def cleanPath (p : String) : String :=
  if p = "" then "."
  else
    let rooted : Bool := match p.data with | '/' :: _ => true | _ => false
    let comps := ((splitSlash p.data).map String.mk).filter (fun c => c ≠ "" && c ≠ ".")
    let out := comps.foldl
      (fun acc c =>
        if c = ".." then
          match acc with
          | [] => if rooted then [] else [".."]
          | a :: rest => if a = ".." then c :: acc else rest
        else c :: acc) []
    let body := String.intercalate "/" out.reverse
    if rooted then (if body = "" then "/" else "/" ++ body)
    else (if body = "" then "." else body)

/-- Go `filepath.Dir` (Unix): everything up to and including the final path
separator, cleaned; "." when the path holds no separator. -/
def goDir (path : String) : String :=
  cleanPath (String.mk ((path.data.reverse.dropWhile (fun c => c ≠ '/')).reverse))

/-- The error values the runner layer produces, tagged by provenance:
`msg` for errors.New/fmt.Errorf-built messages, `wait` for the raw error of
the process run/wait call surfaced unchanged, `ctxErr` for ctx.Err(), and
`osErr` for raw temp-file/OS setup errors surfaced unchanged. -/
inductive GoError
  | msg (s : String)
  | wait (s : String)
  | ctxErr (s : String)
  | osErr (s : String)
  deriving DecidableEq

/-- Outcome of the child process: `waitErr = none` means exit status 0;
`some w` is the error of cmd.Run() (nonzero exit or start failure).
`stdoutS`/`stderrS` are the captured output buffers. -/
structure ProcOutcome where
  waitErr : Option String
  stdoutS : String
  stderrS : String
  deriving DecidableEq

/-- The shared post-wait result mapping of the batch launchers
(Landrun.Run, Firejail.Run, SandboxExec.Run; pkg/runner): on failure, if
the stderr buffer is non-empty the trimmed stderr becomes the error
message, otherwise the raw wait error is surfaced; on success the trimmed
stdout is returned with a nil error. -/
def captureResult (p : ProcOutcome) : String × Option GoError :=
  match p.waitErr with
  | some w =>
    if p.stderrS.length > 0 then ("", some (.msg (goTrimSpace p.stderrS)))
    else ("", some (.wait w))
  | none => (goTrimSpace p.stdoutS, none)

/-! ## Landrun backend (pkg/runner/landrun.go) -/

/-- `LandrunOptions` (landrun.go): filesystem path lists, TCP port lists,
unrestricted-mode switches, best-effort flag.  Ports are 16-bit in Go;
only carried through here, so modelled as Nat. -/
structure LandrunOptions where
  allowReadFolders : List String := []
  allowReadExecFolders : List String := []
  allowWriteFolders : List String := []
  allowWriteExecFolders : List String := []
  allowBindTCP : List Nat := []
  allowConnectTCP : List Nat := []
  allowNetworking : Bool := false
  unrestrictedFilesystem : Bool := false
  bestEffort : Bool := false
  deriving DecidableEq

/-- The typed Landlock rules as constructed by landrun.go through the
go-landlock constructors: `landlock.RWDirs`, `landlock.RODirs` (which also
grants execute), `landlock.BindTCP`, `landlock.ConnectTCP`. -/
inductive LandlockRule
  | RWDirs (paths : List String)
  | RODirs (paths : List String)
  | BindTCP (port : Nat)
  | ConnectTCP (port : Nat)
  deriving DecidableEq

/-- A go-landlock `landlock.Config`: an ABI version plus the best-effort
wrapper flag. -/
structure LandlockConfig where
  version : Nat
  bestEffortMode : Bool
  deriving DecidableEq

/-- `landlock.V1`: basic filesystem restrictions (kernel 5.13+). -/
def landlockV1 : LandlockConfig := ⟨1, false⟩

/-- `landlock.V4`: network restrictions (kernel 6.7+). -/
def landlockV4 : LandlockConfig := ⟨4, false⟩

/-- `Config.BestEffort()` of go-landlock: wrap the config for graceful
degradation; the ABI version is unchanged. -/
def LandlockConfig.BestEffort (c : LandlockConfig) : LandlockConfig :=
  { c with bestEffortMode := true }

/-- The irreversible side effects the landrun backend can perform on the
hosting process: an invocation of `config.Restrict(rules...)`. -/
inductive LandlockEffect
  | Restrict (config : LandlockConfig) (rules : List LandlockRule)
  deriving DecidableEq

/-- Host facts consulted by the landrun capability probe: the value of
`runtime.GOOS` and whether `os.Stat("/sys/kernel/security/landlock")`
succeeds. -/
structure Host where
  goos : String
  landlockSecurityfs : Bool
  deriving DecidableEq

namespace Landrun

/-- `Landrun.buildLandlockRules` (landrun.go): substitute template
variables in each non-empty path list, then append — unless the filesystem
is unrestricted — the fixed /dev,/tmp read-write baseline rule and one
rule per non-empty path list (RODirs for read and read-exec, RWDirs for
write and write-exec), and — unless networking is unrestricted — one
BindTCP rule per bind port and one ConnectTCP rule per connect port. -/
def buildLandlockRules (o : LandrunOptions) (su : Subst) : List LandlockRule :=
  let allowReadFolders := o.allowReadFolders
  let allowReadFolders :=
    if allowReadFolders.length > 0 then ProcessTemplateListFlexible allowReadFolders su
    else allowReadFolders
  let allowReadExecFolders := o.allowReadExecFolders
  let allowReadExecFolders :=
    if allowReadExecFolders.length > 0 then ProcessTemplateListFlexible allowReadExecFolders su
    else allowReadExecFolders
  let allowWriteFolders := o.allowWriteFolders
  let allowWriteFolders :=
    if allowWriteFolders.length > 0 then ProcessTemplateListFlexible allowWriteFolders su
    else allowWriteFolders
  let allowWriteExecFolders := o.allowWriteExecFolders
  let allowWriteExecFolders :=
    if allowWriteExecFolders.length > 0 then ProcessTemplateListFlexible allowWriteExecFolders su
    else allowWriteExecFolders
  let rules : List LandlockRule := []
  let rules :=
    if !o.unrestrictedFilesystem then
      let rules := rules ++ [LandlockRule.RWDirs ["/dev", "/tmp"]]
      let rules :=
        if allowReadFolders.length > 0 then rules ++ [LandlockRule.RODirs allowReadFolders]
        else rules
      let rules :=
        if allowReadExecFolders.length > 0 then rules ++ [LandlockRule.RODirs allowReadExecFolders]
        else rules
      let rules :=
        if allowWriteFolders.length > 0 then rules ++ [LandlockRule.RWDirs allowWriteFolders]
        else rules
      let rules :=
        if allowWriteExecFolders.length > 0 then rules ++ [LandlockRule.RWDirs allowWriteExecFolders]
        else rules
      rules
    else rules
  let rules :=
    if !o.allowNetworking then
      let rules := rules ++ o.allowBindTCP.map LandlockRule.BindTCP
      let rules := rules ++ o.allowConnectTCP.map LandlockRule.ConnectTCP
      rules
    else rules
  rules

/-- The `needsNetwork` condition of `Landrun.selectLandlockABI`. -/
def needsNetwork (o : LandrunOptions) : Bool :=
  !o.allowNetworking && (decide (o.allowBindTCP.length > 0) || decide (o.allowConnectTCP.length > 0))

/-- `Landrun.selectLandlockABI` (landrun.go): V4 when network restrictions
are requested, V1 otherwise; wrapped best-effort when the option is set. -/
def selectLandlockABI (o : LandrunOptions) : LandlockConfig :=
  let config := if needsNetwork o then landlockV4 else landlockV1
  if o.bestEffort then config.BestEffort else config

/-- `Landrun.CheckImplicitRequirements` (landrun.go): require Linux, then a
side-effect-free stat of the Landlock securityfs interface.  The receiver's
options are part of the signature (the method is on *Landrun) but the body
consults only the host.  The second component records the Restrict
invocations performed, for comparison with Run/RunWithPipes. -/
def CheckImplicitRequirements (o : LandrunOptions) (h : Host) :
    Option GoError × List LandlockEffect :=
  let _ := o
  if h.goos ≠ "linux" then (some (.msg "landrun runner requires Linux"), [])
  else if !h.landlockSecurityfs then
    (some (.msg "landlock not available on this kernel"), [])
  else (none, [])

/-- `Landrun.Run` (landrun.go): context check, rule construction, the
guarded irreversible Restrict application (only when the rule list is
non-empty), then command execution with the shared capture mapping.
`restrictErr` stands for the outcome of the external Restrict syscall;
the returned effect list records each Restrict invocation. -/
def Run (o : LandrunOptions) (su : Subst) (ctxDone : Bool)
    (restrictErr : Option String) (p : ProcOutcome) :
    (String × Option GoError) × List LandlockEffect :=
  if ctxDone then (("", some (.ctxErr "context done")), [])
  else
    let rules := buildLandlockRules o su
    if rules.length > 0 then
      match restrictErr with
      | some e =>
        (("", some (.msg ("failed to apply landlock restrictions: " ++ e))),
         [LandlockEffect.Restrict (selectLandlockABI o) rules])
      | none => (captureResult p, [LandlockEffect.Restrict (selectLandlockABI o) rules])
    else (captureResult p, [])

/-- `Landrun.RunWithPipes` (landrun.go): context check, rule construction,
the guarded Restrict application, then pipe creation and process start.
The three pipe-creation failure points are merged into one `pipeErr`
parameter (each returns a "failed to create ... pipe" error after closing
the pipes created so far). -/
def RunWithPipes (o : LandrunOptions) (su : Subst) (ctxDone : Bool)
    (restrictErr : Option String) (pipeErr : Option String) (startErr : Option String) :
    Option GoError × List LandlockEffect :=
  if ctxDone then (some (.ctxErr "context done"), [])
  else
    let rules := buildLandlockRules o su
    let effects :=
      if rules.length > 0 then [LandlockEffect.Restrict (selectLandlockABI o) rules] else []
    if rules.length > 0 ∧ restrictErr.isSome then
      (some (.msg "failed to apply landlock restrictions"), effects)
    else
      match pipeErr with
      | some e => (some (.msg ("failed to create pipe: " ++ e)), effects)
      | none =>
        match startErr with
        | some e => (some (.msg ("failed to start command: " ++ e)), effects)
        | none => (none, effects)

/-- The landrun execution calls never assign to the runner's stored
options: `buildLandlockRules` substitutes into local copies
(landrun.go lines 113-132), so the stored options after a call are the
stored options before it. -/
def optionsAfterRun (o : LandrunOptions) (_su : Subst) : LandrunOptions := o

end Landrun

/-! ## Firejail backend (pkg/runner/firejail.go) -/

/-- `FirejailOptions` (firejail.go). -/
structure FirejailOptions where
  shell : String := ""
  allowNetworking : Bool := false
  allowUserFolders : Bool := false
  allowReadFolders : List String := []
  allowWriteFolders : List String := []
  allowReadFiles : List String := []
  allowWriteFiles : List String := []
  customProfile : String := ""
  deriving DecidableEq

namespace Firejail

/-- The per-call template-substitution block at the top of `Firejail.Run`
and `Firejail.RunWithPipes` (firejail.go): each non-empty path list of the
runner's stored options is overwritten by its substituted form (the four
updates touch disjoint fields). -/
def substituteOptions (o : FirejailOptions) (su : Subst) : FirejailOptions :=
  { o with
    allowReadFolders :=
      if o.allowReadFolders.length > 0 then ProcessTemplateListFlexible o.allowReadFolders su
      else o.allowReadFolders
    allowWriteFolders :=
      if o.allowWriteFolders.length > 0 then ProcessTemplateListFlexible o.allowWriteFolders su
      else o.allowWriteFolders
    allowReadFiles :=
      if o.allowReadFiles.length > 0 then ProcessTemplateListFlexible o.allowReadFiles su
      else o.allowReadFiles
    allowWriteFiles :=
      if o.allowWriteFiles.length > 0 then ProcessTemplateListFlexible o.allowWriteFiles su
      else o.allowWriteFiles }

/-- Modelled from the spec: pkg/runner/firejail_profile.tpl is embedded in
the binary and not present under src/ (only the sketch in
.augment/rules/05-sandbox-firejail.md is).  Per spec §4.2 the rendered
text carries a network clause chosen by the networking flag, a user-folder
clause, and one allow clause per path entry; per §4.2 step 3 a non-empty
caller-supplied custom profile text replaces the generated artifact
entirely. -/
def renderProfile (o : FirejailOptions) : String :=
  if o.customProfile ≠ "" then o.customProfile
  else
    (if !o.allowNetworking then "net none\n" else "")
    ++ (if !o.allowUserFolders then "private\n" else "")
    ++ String.join (o.allowReadFolders.map (fun p => "read-only " ++ p ++ "\n"))
    ++ String.join (o.allowWriteFolders.map (fun p => "whitelist " ++ p ++ "\n"))
    ++ String.join (o.allowReadFiles.map (fun p => "read-only " ++ p ++ "\n"))
    ++ String.join (o.allowWriteFiles.map (fun p => "whitelist " ++ p ++ "\n"))

/-- The artifact a `Firejail.Run`/`RunWithPipes` call materializes for the
enforcement tool: the profile rendered over the substituted options. -/
def runProfile (o : FirejailOptions) (su : Subst) : String :=
  renderProfile (substituteOptions o su)

/-- `Firejail.Run` (firejail.go), result- and state-relevant behaviour:
context check; in-place substitution of the stored path lists; profile
render and temp-file materialization (`profileFileErr` merges the
create/write/sync failure points of the profile file, `scriptFileErr`
those of the command script file); then process execution with the shared
capture mapping.  The second component is the runner's stored options
after the call. -/
def Run (o : FirejailOptions) (su : Subst) (ctxDone : Bool)
    (profileFileErr : Option String) (scriptFileErr : Option String) (p : ProcOutcome) :
    (String × Option GoError) × FirejailOptions :=
  if ctxDone then (("", some (.ctxErr "context done")), o)
  else
    let o' := substituteOptions o su
    match profileFileErr with
    | some e => (("", some (.msg ("failed to create temporary profile file: " ++ e))), o')
    | none =>
      match scriptFileErr with
      | some e => (("", some (.msg ("failed to create temporary command file: " ++ e))), o')
      | none => (captureResult p, o')

end Firejail

/-! ## SandboxExec backend (pkg/runner/sandbox.go) -/

/-- `SandboxExecOptions` (sandbox.go). -/
structure SandboxExecOptions where
  shell : String := ""
  allowNetworking : Bool := false
  allowUserFolders : Bool := false
  allowReadFolders : List String := []
  allowWriteFolders : List String := []
  allowReadFiles : List String := []
  allowWriteFiles : List String := []
  customProfile : String := ""
  deriving DecidableEq

namespace SandboxExec

/-- The parent-directory augmentation loop of `SandboxExec.Run`
(sandbox.go): for each file path, append its `filepath.Dir` to the folder
list unless already contained. -/
def addParentDirs (folders : List String) (files : List String) : List String :=
  files.foldl
    (fun acc f =>
      let dir := goDir f
      if sliceContains acc dir then acc else acc ++ [dir]) folders

/-- The per-call template-substitution block of `SandboxExec.Run`
(sandbox.go): substitute each non-empty stored path list in place and,
for the file lists, additionally append each substituted file's parent
directory to the corresponding (already substituted) folder list.  The
sequential in-place mutations of the Go code are rendered as a data-flow
chain on the individual fields. -/
def substituteRunOptions (o : SandboxExecOptions) (su : Subst) : SandboxExecOptions :=
  let readFolders :=
    if o.allowReadFolders.length > 0 then ProcessTemplateListFlexible o.allowReadFolders su
    else o.allowReadFolders
  let writeFolders :=
    if o.allowWriteFolders.length > 0 then ProcessTemplateListFlexible o.allowWriteFolders su
    else o.allowWriteFolders
  let readFiles :=
    if o.allowReadFiles.length > 0 then ProcessTemplateListFlexible o.allowReadFiles su
    else o.allowReadFiles
  let readFolders :=
    if o.allowReadFiles.length > 0 then addParentDirs readFolders readFiles
    else readFolders
  let writeFiles :=
    if o.allowWriteFiles.length > 0 then ProcessTemplateListFlexible o.allowWriteFiles su
    else o.allowWriteFiles
  let writeFolders :=
    if o.allowWriteFiles.length > 0 then addParentDirs writeFolders writeFiles
    else writeFolders
  { o with
    allowReadFolders := readFolders
    allowWriteFolders := writeFolders
    allowReadFiles := readFiles
    allowWriteFiles := writeFiles }

/-- The per-call template-substitution block of `SandboxExec.RunWithPipes`
(sandbox.go): only the in-place substitutions, no parent-directory
augmentation. -/
def substitutePipesOptions (o : SandboxExecOptions) (su : Subst) : SandboxExecOptions :=
  { o with
    allowReadFolders :=
      if o.allowReadFolders.length > 0 then ProcessTemplateListFlexible o.allowReadFolders su
      else o.allowReadFolders
    allowWriteFolders :=
      if o.allowWriteFolders.length > 0 then ProcessTemplateListFlexible o.allowWriteFolders su
      else o.allowWriteFolders
    allowReadFiles :=
      if o.allowReadFiles.length > 0 then ProcessTemplateListFlexible o.allowReadFiles su
      else o.allowReadFiles
    allowWriteFiles :=
      if o.allowWriteFiles.length > 0 then ProcessTemplateListFlexible o.allowWriteFiles su
      else o.allowWriteFiles }

/-- Modelled from the spec: pkg/runner/sandbox_profile.tpl is embedded in
the binary and not present under src/ (only the sketch in
.augment/rules/05-sandbox-firejail.md is).  Per spec §4.2 the rendered
Seatbelt text carries the mechanism's native default, a network clause,
a user-folder clause and one allow clause per path entry; per §4.2 step 3
a non-empty caller-supplied custom profile text replaces the generated
artifact entirely. -/
def renderProfile (o : SandboxExecOptions) : String :=
  if o.customProfile ≠ "" then o.customProfile
  else
    "(version 1)\n"
    ++ (if o.allowNetworking then "(allow network*)\n" else "(deny network*)\n")
    ++ (if o.allowUserFolders then "" else "(deny file-write* (subpath \"/Users\"))\n")
    ++ String.join (o.allowReadFolders.map (fun p => "(allow file-read* (subpath \"" ++ p ++ "\"))\n"))
    ++ String.join (o.allowWriteFolders.map (fun p => "(allow file-write* (subpath \"" ++ p ++ "\"))\n"))
    ++ String.join (o.allowReadFiles.map (fun p => "(allow file-read* (literal \"" ++ p ++ "\"))\n"))
    ++ String.join (o.allowWriteFiles.map (fun p => "(allow file-write* (literal \"" ++ p ++ "\"))\n"))

/-- The artifact a `SandboxExec.Run` call materializes: the profile
rendered over the substituted (and parent-dir-augmented) options. -/
def runProfile (o : SandboxExecOptions) (su : Subst) : String :=
  renderProfile (substituteRunOptions o su)

/-- `SandboxExec.Run` (sandbox.go), result- and state-relevant behaviour,
mirroring `Firejail.Run` with the sandbox substitution block. -/
def Run (o : SandboxExecOptions) (su : Subst) (ctxDone : Bool)
    (profileFileErr : Option String) (scriptFileErr : Option String) (p : ProcOutcome) :
    (String × Option GoError) × SandboxExecOptions :=
  if ctxDone then (("", some (.ctxErr "context done")), o)
  else
    let o' := substituteRunOptions o su
    match profileFileErr with
    | some e => (("", some (.msg ("failed to create temporary profile file: " ++ e))), o')
    | none =>
      match scriptFileErr with
      | some e => (("", some (.msg ("failed to create temporary command file: " ++ e))), o')
      | none => (captureResult p, o')

end SandboxExec

/-! ## Exec backend (pkg/runner/exec.go) -/

/-- `ExecOptions` (exec.go). -/
structure ExecOptions where
  shell : String := ""
  deriving DecidableEq

namespace Exec

/-- `Exec.Run` (exec.go), result-relevant behaviour: context check;
`setupErr` merges the temp-dir/temp-file creation failure points of the
tmpfile branch (each returns the raw OS error); then the capture mapping,
including the Windows-only fallback that returns the trimmed stderr as the
success value when stdout is whitespace-only and stderr is not (the
Windows version-banner check at lines 186-191 does not change the
output). -/
def Run (goos : String) (ctxDone : Bool) (setupErr : Option String) (p : ProcOutcome) :
    String × Option GoError :=
  if ctxDone then ("", some (.ctxErr "context done"))
  else
    match setupErr with
    | some e => ("", some (.osErr e))
    | none =>
      match p.waitErr with
      | some w =>
        if p.stderrS.length > 0 then ("", some (.msg (goTrimSpace p.stderrS)))
        else ("", some (.wait w))
      | none =>
        let output :=
          if goos = "windows" ∧ goTrimSpace p.stdoutS = "" ∧ goTrimSpace p.stderrS ≠ "" then
            p.stderrS
          else p.stdoutS
        (goTrimSpace output, none)

end Exec

/-! ## Docker backend (pkg/runner/docker.go) -/

namespace Docker

/-- `Docker.Run` (docker.go), result-relevant behaviour: `scriptErr`
stands for a script-file creation failure; `inner` is the result of the
delegated `execRunner.Run` call on the docker command line, whose error is
wrapped and whose output is passed through. -/
def Run (scriptErr : Option String) (inner : String × Option GoError) :
    String × Option GoError :=
  match scriptErr with
  | some e => ("", some (.msg ("failed to create script file: " ++ e)))
  | none =>
    match inner.2 with
    | some _ => ("", some (.msg "docker command execution failed"))
    | none => (inner.1, none)

end Docker

/-! ## Configuration maps and per-backend option constructors
(pkg/runner/runner.go, exec.go, landrun.go, firejail.go, sandbox.go,
docker.go) -/

/-- A JSON-representable option value appearing in a runner configuration
map. -/
inductive OptVal
  | str (s : String)
  | boolean (b : Bool)
  | num (n : Int)
  | strList (l : List String)
  | natList (l : List Nat)
  deriving DecidableEq

/-- `runner.Options`: the generic string-keyed configuration map. -/
abbrev RunnerOptions := List (String × OptVal)

/-- Go `encoding/json` unmarshalling of a string field from the marshalled
options map: missing key yields the zero value, a present string is taken,
any other type is an unmarshalling error naming the field. -/
def jsonStr (o : RunnerOptions) (k : String) : Except String String :=
  match o.lookup k with
  | none => .ok ""
  | some (.str s) => .ok s
  | some _ => .error ("cannot unmarshal field " ++ k)

/-- Go `encoding/json` unmarshalling of a bool field. -/
def jsonBool (o : RunnerOptions) (k : String) : Except String Bool :=
  match o.lookup k with
  | none => .ok false
  | some (.boolean b) => .ok b
  | some _ => .error ("cannot unmarshal field " ++ k)

/-- Go `encoding/json` unmarshalling of a string-list field. -/
def jsonStrList (o : RunnerOptions) (k : String) : Except String (List String) :=
  match o.lookup k with
  | none => .ok []
  | some (.strList l) => .ok l
  | some _ => .error ("cannot unmarshal field " ++ k)

/-- Go `encoding/json` unmarshalling of a port-list field. -/
def jsonNatList (o : RunnerOptions) (k : String) : Except String (List Nat) :=
  match o.lookup k with
  | none => .ok []
  | some (.natList l) => .ok l
  | some _ => .error ("cannot unmarshal field " ++ k)

/-- `NewExecOptions` (exec.go): marshal the generic map and unmarshal it
into `ExecOptions`. -/
def NewExecOptions (o : RunnerOptions) : Except String ExecOptions := do
  let shell ← jsonStr o "shell"
  return { shell := shell }

/-- `NewLandrunOptions` (landrun.go): marshal the generic map and
unmarshal it into `LandrunOptions`. -/
def NewLandrunOptions (o : RunnerOptions) : Except String LandrunOptions := do
  let allowReadFolders ← jsonStrList o "allow_read_folders"
  let allowReadExecFolders ← jsonStrList o "allow_read_exec_folders"
  let allowWriteFolders ← jsonStrList o "allow_write_folders"
  let allowWriteExecFolders ← jsonStrList o "allow_write_exec_folders"
  let allowBindTCP ← jsonNatList o "allow_bind_tcp"
  let allowConnectTCP ← jsonNatList o "allow_connect_tcp"
  let allowNetworking ← jsonBool o "allow_networking"
  let unrestrictedFilesystem ← jsonBool o "unrestricted_filesystem"
  let bestEffort ← jsonBool o "best_effort"
  return { allowReadFolders := allowReadFolders
           allowReadExecFolders := allowReadExecFolders
           allowWriteFolders := allowWriteFolders
           allowWriteExecFolders := allowWriteExecFolders
           allowBindTCP := allowBindTCP
           allowConnectTCP := allowConnectTCP
           allowNetworking := allowNetworking
           unrestrictedFilesystem := unrestrictedFilesystem
           bestEffort := bestEffort }

/-- `NewFirejailOptions` (firejail.go): marshal the generic map and
unmarshal it into `FirejailOptions`. -/
def NewFirejailOptions (o : RunnerOptions) : Except String FirejailOptions := do
  let shell ← jsonStr o "shell"
  let allowNetworking ← jsonBool o "allow_networking"
  let allowUserFolders ← jsonBool o "allow_user_folders"
  let allowReadFolders ← jsonStrList o "allow_read_folders"
  let allowWriteFolders ← jsonStrList o "allow_write_folders"
  let allowReadFiles ← jsonStrList o "allow_read_files"
  let allowWriteFiles ← jsonStrList o "allow_write_files"
  let customProfile ← jsonStr o "custom_profile"
  return { shell := shell
           allowNetworking := allowNetworking
           allowUserFolders := allowUserFolders
           allowReadFolders := allowReadFolders
           allowWriteFolders := allowWriteFolders
           allowReadFiles := allowReadFiles
           allowWriteFiles := allowWriteFiles
           customProfile := customProfile }

/-- `NewSandboxExecOptions` (sandbox.go): marshal the generic map and
unmarshal it into `SandboxExecOptions`. -/
def NewSandboxExecOptions (o : RunnerOptions) : Except String SandboxExecOptions := do
  let shell ← jsonStr o "shell"
  let allowNetworking ← jsonBool o "allow_networking"
  let allowUserFolders ← jsonBool o "allow_user_folders"
  let allowReadFolders ← jsonStrList o "allow_read_folders"
  let allowWriteFolders ← jsonStrList o "allow_write_folders"
  let allowReadFiles ← jsonStrList o "allow_read_files"
  let allowWriteFiles ← jsonStrList o "allow_write_files"
  let customProfile ← jsonStr o "custom_profile"
  return { shell := shell
           allowNetworking := allowNetworking
           allowUserFolders := allowUserFolders
           allowReadFolders := allowReadFolders
           allowWriteFolders := allowWriteFolders
           allowReadFiles := allowReadFiles
           allowWriteFiles := allowWriteFiles
           customProfile := customProfile }

/-- `DockerOptions` (docker.go). -/
structure DockerOptions where
  image : String := ""
  dockerRunOpts : String := ""
  mounts : List String := []
  allowNetworking : Bool := true
  network : String := ""
  user : String := ""
  workDir : String := ""
  prepareCommand : String := ""
  memory : String := ""
  memoryReservation : String := ""
  memorySwap : String := ""
  memorySwappiness : Int := -1
  capAdd : List String := []
  capDrop : List String := []
  dns : List String := []
  dnsSearch : List String := []
  platform : String := ""
  deriving DecidableEq

/-- Go type assertion `v, ok := m[k].(string)` with a default when missing
or of a different type (such entries are silently ignored by
`NewDockerOptions`). -/
def assertStr (o : RunnerOptions) (k : String) (d : String) : String :=
  match o.lookup k with
  | some (.str s) => s
  | _ => d

/-- Go type assertion for a bool entry, defaulting when missing or
mistyped. -/
def assertBool (o : RunnerOptions) (k : String) (d : Bool) : Bool :=
  match o.lookup k with
  | some (.boolean b) => b
  | _ => d

/-- Go type assertion for a string-list entry, defaulting when missing or
mistyped. -/
def assertStrList (o : RunnerOptions) (k : String) (d : List String) : List String :=
  match o.lookup k with
  | some (.strList l) => l
  | _ => d

/-- Go type assertion for a numeric entry, defaulting when missing or
mistyped. -/
def assertNum (o : RunnerOptions) (k : String) (d : Int) : Int :=
  match o.lookup k with
  | some (.num n) => n
  | _ => d

/-- `NewDockerOptions` (docker.go): field-by-field extraction with
defaults; the `image` key is required and its absence (or a non-string
value) is a configuration error; all other mistyped entries are silently
ignored. -/
def NewDockerOptions (g : RunnerOptions) : Except String DockerOptions :=
  match g.lookup "image" with
  | some (.str image) =>
    .ok { image := image
          dockerRunOpts := assertStr g "docker_run_opts" ""
          mounts := assertStrList g "mounts" []
          allowNetworking := assertBool g "allow_networking" true
          network := assertStr g "network" ""
          user := assertStr g "user" ""
          workDir := assertStr g "workdir" ""
          prepareCommand := assertStr g "prepare_command" ""
          memory := assertStr g "memory" ""
          memoryReservation := assertStr g "memory_reservation" ""
          memorySwap := assertStr g "memory_swap" ""
          memorySwappiness := assertNum g "memory_swappiness" (-1)
          capAdd := assertStrList g "cap_add" []
          capDrop := assertStrList g "cap_drop" []
          dns := assertStrList g "dns" []
          dnsSearch := assertStrList g "dns_search" []
          platform := assertStr g "platform" "" }
  | _ => .error "docker runner requires image option"

/-! ## Helper lemmas -/

theorem map_eq_self_of_fix {l : List String} {f : String → String}
    (h : ∀ a ∈ l, f a = a) : l.map f = l := by
  induction l with
  | nil => rfl
  | cons a t ih =>
    simp only [List.map_cons, List.cons.injEq]
    exact ⟨h a (by simp), ih fun b hb => h b (by simp [hb])⟩

theorem sliceContains_iff {l : List String} {x : String} :
    sliceContains l x = true ↔ x ∈ l := by
  simp only [sliceContains, List.any_eq_true, decide_eq_true_eq]
  constructor
  · rintro ⟨s, hs, rfl⟩; exact hs
  · intro hx; exact ⟨x, hx, rfl⟩

theorem mem_addParentDirs_left {A fs : List String} {x : String}
    (hx : x ∈ A) : x ∈ SandboxExec.addParentDirs A fs := by
  induction fs generalizing A with
  | nil => simpa [SandboxExec.addParentDirs] using hx
  | cons f t ih =>
    simp only [SandboxExec.addParentDirs, List.foldl_cons]
    by_cases h : sliceContains A (goDir f) = true
    · simpa [SandboxExec.addParentDirs, h] using ih hx
    · simp only [h]
      exact ih (by simp [hx])

theorem goDir_mem_addParentDirs {A fs : List String} {f : String}
    (hf : f ∈ fs) : goDir f ∈ SandboxExec.addParentDirs A fs := by
  induction fs generalizing A with
  | nil => cases hf
  | cons g t ih =>
    simp only [SandboxExec.addParentDirs, List.foldl_cons]
    rcases List.mem_cons.mp hf with rfl | hft
    · by_cases h : sliceContains A (goDir f) = true
      · simp only [h]
        exact mem_addParentDirs_left (sliceContains_iff.mp h)
      · simp only [h]
        exact mem_addParentDirs_left (by simp)
    · by_cases h : sliceContains A (goDir g) = true
      · simp only [h]; exact ih hft
      · simp only [h]; exact ih hft

theorem addParentDirs_eq_of_contained {A fs : List String}
    (h : ∀ f ∈ fs, sliceContains A (goDir f) = true) :
    SandboxExec.addParentDirs A fs = A := by
  induction fs with
  | nil => rfl
  | cons f t ih =>
    simp only [SandboxExec.addParentDirs, List.foldl_cons, h f (by simp)]
    exact ih fun g hg => h g (by simp [hg])

theorem mem_addParentDirs_cases {A fs : List String} {x : String}
    (hx : x ∈ SandboxExec.addParentDirs A fs) :
    x ∈ A ∨ ∃ f ∈ fs, x = goDir f := by
  induction fs generalizing A with
  | nil => exact Or.inl (by simpa [SandboxExec.addParentDirs] using hx)
  | cons f t ih =>
    simp only [SandboxExec.addParentDirs, List.foldl_cons] at hx
    by_cases h : sliceContains A (goDir f) = true
    · simp only [h] at hx
      rcases ih hx with hA | ⟨g, hg, rfl⟩
      · exact Or.inl hA
      · exact Or.inr ⟨g, by simp [hg], rfl⟩
    · simp only [h] at hx
      rcases ih hx with hA | ⟨g, hg, rfl⟩
      · rcases List.mem_append.mp hA with hA' | hA'
        · exact Or.inl hA'
        · exact Or.inr ⟨f, by simp, by simpa using hA'⟩
      · exact Or.inr ⟨g, by simp [hg], rfl⟩

theorem substGuard_eq (l : List String) (su : Subst) :
    (if l.length > 0 then ProcessTemplateListFlexible l su else l) = l.map su := by
  cases l <;> simp [ProcessTemplateListFlexible]

set_option maxHeartbeats 800000 in
/-- Characterization of `buildLandlockRules` as an explicit concatenation:
baseline /dev,/tmp rule then one typed rule per non-empty path list when
the filesystem is restricted, nothing filesystem-related otherwise,
followed by the per-port network rules when networking is restricted. -/
theorem buildLandlockRules_eq (o : LandrunOptions) (su : Subst) :
    Landrun.buildLandlockRules o su =
      (if o.unrestrictedFilesystem then [] else
        [LandlockRule.RWDirs ["/dev", "/tmp"]]
        ++ (if o.allowReadFolders.length > 0 then
              [LandlockRule.RODirs (o.allowReadFolders.map su)] else [])
        ++ (if o.allowReadExecFolders.length > 0 then
              [LandlockRule.RODirs (o.allowReadExecFolders.map su)] else [])
        ++ (if o.allowWriteFolders.length > 0 then
              [LandlockRule.RWDirs (o.allowWriteFolders.map su)] else [])
        ++ (if o.allowWriteExecFolders.length > 0 then
              [LandlockRule.RWDirs (o.allowWriteExecFolders.map su)] else []))
      ++ (if o.allowNetworking then [] else
        o.allowBindTCP.map LandlockRule.BindTCP
        ++ o.allowConnectTCP.map LandlockRule.ConnectTCP) := by
  by_cases h1 : o.unrestrictedFilesystem <;> by_cases h2 : o.allowNetworking <;>
    simp only [Landrun.buildLandlockRules, substGuard_eq, List.length_map, h1, h2,
      Bool.not_true, Bool.not_false, ite_true, ite_false, List.nil_append, List.append_nil] <;>
    split_ifs <;> simp_all

/-- C1: the kernel-restriction backend's capability probe
`CheckImplicitRequirements` is side-effect-free: it performs no Restrict
invocation on any host, and its outcome does not depend on the options
value the Runner was built with. -/
theorem C1_landrun_probe_side_effect_free :
    ∀ (o o' : LandrunOptions) (h : Host),
      (Landrun.CheckImplicitRequirements o h).2 = [] ∧
      Landrun.CheckImplicitRequirements o h = Landrun.CheckImplicitRequirements o' h := by
  intro o o' h
  refine ⟨?_, rfl⟩
  unfold Landrun.CheckImplicitRequirements
  split
  · rfl
  · split <;> rfl

/-- C2: whenever `buildLandlockRules` yields the empty rule list — which
happens exactly for an unrestricted filesystem together with unrestricted
networking or empty port lists — both `Run` and `RunWithPipes` perform no
Restrict invocation at all before the command is executed. -/
theorem C2_empty_rules_skip_restriction (o : LandrunOptions) (su : Subst)
    (hempty : Landrun.buildLandlockRules o su = []) :
    (∀ ctxDone restrictErr p, (Landrun.Run o su ctxDone restrictErr p).2 = []) ∧
    (∀ ctxDone restrictErr pipeErr startErr,
      (Landrun.RunWithPipes o su ctxDone restrictErr pipeErr startErr).2 = []) ∧
    (o.unrestrictedFilesystem = true ∧
      (o.allowNetworking = true ∨ (o.allowBindTCP = [] ∧ o.allowConnectTCP = []))) := by
  refine ⟨?_, ?_, ?_⟩
  · intro ctxDone restrictErr p
    unfold Landrun.Run
    split
    · rfl
    · simp [hempty]
  · intro ctxDone restrictErr pipeErr startErr
    unfold Landrun.RunWithPipes
    split
    · rfl
    · rcases pipeErr with _ | e <;> rcases startErr with _ | e' <;> simp [hempty]
  · have h := buildLandlockRules_eq o su
    rw [hempty] at h
    by_cases h1 : o.unrestrictedFilesystem <;> by_cases h2 : o.allowNetworking <;>
      simp [h1, h2] at h ⊢
    exact h

/-- Witness for C2 at a concrete unrestricted options value. -/
theorem C2_empty_rules_skip_restriction_witness :
    Landrun.buildLandlockRules
        { unrestrictedFilesystem := true, allowNetworking := true } (fun s => s) = [] ∧
    (Landrun.Run { unrestrictedFilesystem := true, allowNetworking := true }
        (fun s => s) false none ⟨none, "", ""⟩).2 = [] := by
  refine ⟨by decide, ?_⟩
  exact (C2_empty_rules_skip_restriction
    { unrestrictedFilesystem := true, allowNetworking := true } (fun s => s)
    (by decide)).1 false none ⟨none, "", ""⟩

/-- C3: the kernel-restriction backend always selects the smallest
Landlock ABI satisfying the compiled rule set: version 4 (the minimum
supporting network restriction) exactly when a network rule will be
present — networking restricted and a non-empty bind or connect port
list — and version 1 (the minimum supporting filesystem restriction)
otherwise; the best-effort option only wraps the config and never changes
the selected version. -/
theorem C3_smallest_abi_version (o : LandrunOptions) :
    (Landrun.selectLandlockABI o).version =
      (if o.allowNetworking = false ∧ (o.allowBindTCP ≠ [] ∨ o.allowConnectTCP ≠ [])
       then 4 else 1) ∧
    (Landrun.selectLandlockABI o).bestEffortMode = o.bestEffort := by
  by_cases h1 : o.allowNetworking <;> by_cases hb : o.bestEffort <;>
    by_cases h2 : o.allowBindTCP = [] <;> by_cases h3 : o.allowConnectTCP = [] <;>
    simp [Landrun.selectLandlockABI, Landrun.needsNetwork, h1, hb, h2, h3,
      landlockV1, landlockV4, LandlockConfig.BestEffort, List.length_pos]

/-- C7: with an unrestricted filesystem the compiled rule list holds no
filesystem rule at all — only network rules; with a restricted filesystem
it begins with the baseline read-write rule for the fixed scratch paths
/dev and /tmp, followed by one rule per non-empty path list, typed by its
access class (read-only and read-exec lists compile to RODirs, which also
grants execute; write and write-exec lists compile to RWDirs). -/
theorem C7_filesystem_rule_structure (o : LandrunOptions) (su : Subst) :
    (o.unrestrictedFilesystem = true →
      ∀ r ∈ Landrun.buildLandlockRules o su,
        (∃ port, r = LandlockRule.BindTCP port) ∨
        (∃ port, r = LandlockRule.ConnectTCP port)) ∧
    (o.unrestrictedFilesystem = false →
      Landrun.buildLandlockRules o su =
        [LandlockRule.RWDirs ["/dev", "/tmp"]]
        ++ (if o.allowReadFolders.length > 0 then
              [LandlockRule.RODirs (o.allowReadFolders.map su)] else [])
        ++ (if o.allowReadExecFolders.length > 0 then
              [LandlockRule.RODirs (o.allowReadExecFolders.map su)] else [])
        ++ (if o.allowWriteFolders.length > 0 then
              [LandlockRule.RWDirs (o.allowWriteFolders.map su)] else [])
        ++ (if o.allowWriteExecFolders.length > 0 then
              [LandlockRule.RWDirs (o.allowWriteExecFolders.map su)] else [])
        ++ (if o.allowNetworking then [] else
            o.allowBindTCP.map LandlockRule.BindTCP
            ++ o.allowConnectTCP.map LandlockRule.ConnectTCP)) := by
  constructor
  · intro hu r hr
    rw [buildLandlockRules_eq o su] at hr
    by_cases h2 : o.allowNetworking <;> simp [hu, h2] at hr
    rcases hr with ⟨port, _, rfl⟩ | ⟨port, _, rfl⟩
    · exact Or.inl ⟨port, rfl⟩
    · exact Or.inr ⟨port, rfl⟩
  · intro hu
    rw [buildLandlockRules_eq o su]
    simp [hu]

/-- Witness for C7: a restricted filesystem with one read folder and
unrestricted networking compiles to the baseline rule followed by one
read-only rule. -/
theorem C7_filesystem_rule_structure_witness :
    Landrun.buildLandlockRules
        { allowReadFolders := ["/a"], allowNetworking := true } (fun s => s) =
      [LandlockRule.RWDirs ["/dev", "/tmp"], LandlockRule.RODirs ["/a"]] := by
  have h := (C7_filesystem_rule_structure
    { allowReadFolders := ["/a"], allowNetworking := true } (fun s => s)).2 rfl
  simpa using h

/-- Helper: whenever the shared capture mapping produces an error, the
paired output string is empty. -/
theorem captureResult_error_empty (p : ProcOutcome)
    (h : (captureResult p).2.isSome) : (captureResult p).1 = "" := by
  rcases p with ⟨_ | w, out, err⟩
  · simp [captureResult] at h
  · simp only [captureResult]
    split <;> rfl

/-- C10: for the exec, landrun, firejail, sandbox-exec and docker batch
executions, a non-nil returned error is always paired with the empty
output string — partially captured standard output is never returned
alongside an error. -/
theorem C10_error_implies_empty_output (goos : String) (ctxDone : Bool)
    (setupErr restrictErr profileErr scriptErr dockerScriptErr : Option String)
    (o : LandrunOptions) (fo : FirejailOptions) (so : SandboxExecOptions)
    (su : Subst) (p q : ProcOutcome) :
    ((Exec.Run goos ctxDone setupErr p).2.isSome →
      (Exec.Run goos ctxDone setupErr p).1 = "") ∧
    ((Landrun.Run o su ctxDone restrictErr p).1.2.isSome →
      (Landrun.Run o su ctxDone restrictErr p).1.1 = "") ∧
    ((Firejail.Run fo su ctxDone profileErr scriptErr p).1.2.isSome →
      (Firejail.Run fo su ctxDone profileErr scriptErr p).1.1 = "") ∧
    ((SandboxExec.Run so su ctxDone profileErr scriptErr p).1.2.isSome →
      (SandboxExec.Run so su ctxDone profileErr scriptErr p).1.1 = "") ∧
    ((Docker.Run dockerScriptErr (Exec.Run goos ctxDone setupErr q)).2.isSome →
      (Docker.Run dockerScriptErr (Exec.Run goos ctxDone setupErr q)).1 = "") := by
  refine ⟨?_, ?_, ?_, ?_, ?_⟩
  · intro h
    cases ctxDone
    · rcases setupErr with _ | e
      · rcases p with ⟨_ | w, out, err⟩
        · simp [Exec.Run] at h
        · simp only [Exec.Run]
          split <;> first | rfl | (split <;> rfl)
      · rfl
    · rfl
  · intro h
    cases ctxDone
    · by_cases hr : (Landrun.buildLandlockRules o su).length > 0
      · rcases restrictErr with _ | e
        · simp [Landrun.Run, hr] at h ⊢
          exact captureResult_error_empty p (by simpa using h)
        · simp [Landrun.Run, hr]
      · simp [Landrun.Run, hr] at h ⊢
        exact captureResult_error_empty p (by simpa using h)
    · rfl
  · intro h
    cases ctxDone
    · rcases profileErr with _ | e
      · rcases scriptErr with _ | e'
        · simp [Firejail.Run] at h ⊢
          exact captureResult_error_empty p (by simpa using h)
        · rfl
      · rfl
    · rfl
  · intro h
    cases ctxDone
    · rcases profileErr with _ | e
      · rcases scriptErr with _ | e'
        · simp [SandboxExec.Run] at h ⊢
          exact captureResult_error_empty p (by simpa using h)
        · rfl
      · rfl
    · rfl
  · intro h
    rcases dockerScriptErr with _ | e
    · rcases he : (Exec.Run goos ctxDone setupErr q).2 with _ | ge
      · simp [Docker.Run, he] at h
      · simp [Docker.Run, he]
    · rfl

/-- Witness for C10 at a cancelled-context exec call, whose result is an
error paired with the empty string. -/
theorem C10_error_implies_empty_output_witness :
    (Exec.Run "linux" true none ⟨none, "partial output", ""⟩).2.isSome = true ∧
    (Exec.Run "linux" true none ⟨none, "partial output", ""⟩).1 = "" := by
  refine ⟨by decide, ?_⟩
  exact (C10_error_implies_empty_output "linux" true none none none none none
    {} {} {} (fun s => s) ⟨none, "partial output", ""⟩ ⟨none, "", ""⟩).1 (by decide)

/-- C6 counterexample: on Windows the exec launcher, on a successful exit
with whitespace-only stdout and non-empty stderr, returns the trimmed
stderr — not the trimmed captured standard output — as the success value,
refuting the claim for the exec backend. -/
theorem C6_counterexample_windows_stderr_as_output :
    (Exec.Run "windows" false none ⟨none, "", "error message\n"⟩).1 ≠
      goTrimSpace "" ∧
    (Exec.Run "windows" false none ⟨none, "", "error message\n"⟩).1 =
      "error message" := by
  constructor <;> decide

/-- C6 amended: on successful exit the landrun, firejail and sandbox-exec
batch executions return the captured stdout trimmed with a nil error, and
so does the exec backend except on Windows with whitespace-only stdout and
non-empty stderr, where the trimmed stderr is returned instead; on a
failed run every one of them returns an error whose message is the trimmed
stderr when the raw stderr buffer is non-empty, and the raw process wait
error otherwise, always paired with the empty output string. -/
theorem C6_amended_batch_result_shape (o : LandrunOptions)
    (fo : FirejailOptions) (so : SandboxExecOptions) (su : Subst)
    (goos : String) (p : ProcOutcome) :
    (p.waitErr = none →
      (Landrun.Run o su false none p).1 = (goTrimSpace p.stdoutS, none) ∧
      (Firejail.Run fo su false none none p).1 = (goTrimSpace p.stdoutS, none) ∧
      (SandboxExec.Run so su false none none p).1 = (goTrimSpace p.stdoutS, none) ∧
      (¬(goos = "windows" ∧ goTrimSpace p.stdoutS = "" ∧ goTrimSpace p.stderrS ≠ "") →
        Exec.Run goos false none p = (goTrimSpace p.stdoutS, none)) ∧
      ((goos = "windows" ∧ goTrimSpace p.stdoutS = "" ∧ goTrimSpace p.stderrS ≠ "") →
        Exec.Run goos false none p = (goTrimSpace p.stderrS, none))) ∧
    (∀ w, p.waitErr = some w →
      (Landrun.Run o su false none p).1 =
        (if p.stderrS.length > 0 then ("", some (GoError.msg (goTrimSpace p.stderrS)))
         else ("", some (GoError.wait w))) ∧
      (Firejail.Run fo su false none none p).1 =
        (if p.stderrS.length > 0 then ("", some (GoError.msg (goTrimSpace p.stderrS)))
         else ("", some (GoError.wait w))) ∧
      (SandboxExec.Run so su false none none p).1 =
        (if p.stderrS.length > 0 then ("", some (GoError.msg (goTrimSpace p.stderrS)))
         else ("", some (GoError.wait w))) ∧
      Exec.Run goos false none p =
        (if p.stderrS.length > 0 then ("", some (GoError.msg (goTrimSpace p.stderrS)))
         else ("", some (GoError.wait w)))) := by
  constructor
  · intro hw
    have hc : captureResult p = (goTrimSpace p.stdoutS, none) := by
      simp [captureResult, hw]
    refine ⟨?_, ?_, ?_, ?_, ?_⟩
    · by_cases hr : (Landrun.buildLandlockRules o su).length > 0 <;>
        simp [Landrun.Run, hr, hc]
    · simp [Firejail.Run, hc]
    · simp [SandboxExec.Run, hc]
    · intro hnw
      simp [Exec.Run, hw, hnw]
    · intro hww
      simp [Exec.Run, hw, hww]
  · intro w hw
    have hc : captureResult p =
        (if p.stderrS.length > 0 then ("", some (GoError.msg (goTrimSpace p.stderrS)))
         else ("", some (GoError.wait w))) := by
      simp [captureResult, hw]
    refine ⟨?_, ?_, ?_, ?_⟩
    · by_cases hr : (Landrun.buildLandlockRules o su).length > 0 <;>
        simp [Landrun.Run, hr, hc]
    · simp [Firejail.Run, hc]
    · simp [SandboxExec.Run, hc]
    · simp [Exec.Run, hw]

/-- Witness for C6 at a concrete successful `echo hello`-style outcome:
the trimmed stdout is returned with a nil error by the landrun launcher
and the exec launcher on a non-Windows host. -/
theorem C6_amended_batch_result_shape_witness :
    goTrimSpace "  hello \n" = "hello" ∧
    (Landrun.Run {} (fun s => s) false none ⟨none, "  hello \n", ""⟩).1 =
      ("hello", none) ∧
    Exec.Run "linux" false none ⟨none, "  hello \n", ""⟩ = ("hello", none) := by
  have h := (C6_amended_batch_result_shape {} {} {} (fun s => s) "linux"
    ⟨none, "  hello \n", ""⟩).1 rfl
  refine ⟨by decide, ?_, ?_⟩
  · rw [h.1]; decide
  · rw [h.2.2.2.1 (by decide)]; decide

/-- Helper: the firejail substitution block leaves the stored options
unchanged when the substitution fixes every stored path entry. -/
theorem firejail_substituteOptions_fixed (fo : FirejailOptions) (su : Subst)
    (h : ∀ s ∈ fo.allowReadFolders ++ fo.allowWriteFolders
        ++ fo.allowReadFiles ++ fo.allowWriteFiles, su s = s) :
    Firejail.substituteOptions fo su = fo := by
  have h1 : ProcessTemplateListFlexible fo.allowReadFolders su = fo.allowReadFolders :=
    map_eq_self_of_fix fun a ha => h a (by simp [ha])
  have h2 : ProcessTemplateListFlexible fo.allowWriteFolders su = fo.allowWriteFolders :=
    map_eq_self_of_fix fun a ha => h a (by simp [ha])
  have h3 : ProcessTemplateListFlexible fo.allowReadFiles su = fo.allowReadFiles :=
    map_eq_self_of_fix fun a ha => h a (by simp [ha])
  have h4 : ProcessTemplateListFlexible fo.allowWriteFiles su = fo.allowWriteFiles :=
    map_eq_self_of_fix fun a ha => h a (by simp [ha])
  simp only [Firejail.substituteOptions, h1, h2, h3, h4, ite_self]

/-- Helper: the sandbox-exec pipes substitution block leaves the stored
options unchanged when the substitution fixes every stored path entry. -/
theorem sandbox_substitutePipesOptions_fixed (so : SandboxExecOptions) (su : Subst)
    (h : ∀ s ∈ so.allowReadFolders ++ so.allowWriteFolders
        ++ so.allowReadFiles ++ so.allowWriteFiles, su s = s) :
    SandboxExec.substitutePipesOptions so su = so := by
  have h1 : ProcessTemplateListFlexible so.allowReadFolders su = so.allowReadFolders :=
    map_eq_self_of_fix fun a ha => h a (by simp [ha])
  have h2 : ProcessTemplateListFlexible so.allowWriteFolders su = so.allowWriteFolders :=
    map_eq_self_of_fix fun a ha => h a (by simp [ha])
  have h3 : ProcessTemplateListFlexible so.allowReadFiles su = so.allowReadFiles :=
    map_eq_self_of_fix fun a ha => h a (by simp [ha])
  have h4 : ProcessTemplateListFlexible so.allowWriteFiles su = so.allowWriteFiles :=
    map_eq_self_of_fix fun a ha => h a (by simp [ha])
  simp only [SandboxExec.substitutePipesOptions, h1, h2, h3, h4, ite_self]

/-- Helper: the sandbox-exec Run substitution block leaves the stored
options unchanged when the substitution fixes every stored path entry and
each file entry's parent directory is already contained in the
corresponding folder list. -/
theorem sandbox_substituteRunOptions_fixed (so : SandboxExecOptions) (su : Subst)
    (h : ∀ s ∈ so.allowReadFolders ++ so.allowWriteFolders
        ++ so.allowReadFiles ++ so.allowWriteFiles, su s = s)
    (hrdirs : ∀ f ∈ so.allowReadFiles, sliceContains so.allowReadFolders (goDir f) = true)
    (hwdirs : ∀ f ∈ so.allowWriteFiles, sliceContains so.allowWriteFolders (goDir f) = true) :
    SandboxExec.substituteRunOptions so su = so := by
  have h1 : ProcessTemplateListFlexible so.allowReadFolders su = so.allowReadFolders :=
    map_eq_self_of_fix fun a ha => h a (by simp [ha])
  have h2 : ProcessTemplateListFlexible so.allowWriteFolders su = so.allowWriteFolders :=
    map_eq_self_of_fix fun a ha => h a (by simp [ha])
  have h3 : ProcessTemplateListFlexible so.allowReadFiles su = so.allowReadFiles :=
    map_eq_self_of_fix fun a ha => h a (by simp [ha])
  have h4 : ProcessTemplateListFlexible so.allowWriteFiles su = so.allowWriteFiles :=
    map_eq_self_of_fix fun a ha => h a (by simp [ha])
  have hA : SandboxExec.addParentDirs so.allowReadFolders so.allowReadFiles =
      so.allowReadFolders := addParentDirs_eq_of_contained hrdirs
  have hB : SandboxExec.addParentDirs so.allowWriteFolders so.allowWriteFiles =
      so.allowWriteFolders := addParentDirs_eq_of_contained hwdirs
  simp only [SandboxExec.substituteRunOptions, h1, h2, h3, h4, hA, hB, ite_self]

/-- C4 counterexample: a firejail Run call rewrites the stored path lists
in place — with a stored template entry and a substitution resolving it
(mirroring a Go template entry, braces written escaped), the options held
by the runner after the call differ from the ones held before. -/
theorem C4_counterexample_firejail_mutation :
    (Firejail.Run { allowReadFolders := ["\x7b\x7b.w\x7d\x7d"] }
        (fun s => if s = "\x7b\x7b.w\x7d\x7d" then "/home/user" else s)
        false none none ⟨none, "", ""⟩).2 ≠
      { allowReadFolders := ["\x7b\x7b.w\x7d\x7d"] } := by
  decide

/-- C4 amended: only the kernel-restriction backend's stored options are
never mutated by an execution call; the firejail and sandbox-exec backends
rewrite their stored path lists in place, so the options after a call
equal the options before it exactly when substitution fixes every stored
entry — and additionally, for sandbox-exec batch runs, when each file
entry's parent directory is already listed. -/
theorem C4_amended_stored_options_after_call (o : LandrunOptions)
    (fo : FirejailOptions) (so : SandboxExecOptions) (su : Subst)
    (hffix : ∀ s ∈ fo.allowReadFolders ++ fo.allowWriteFolders
        ++ fo.allowReadFiles ++ fo.allowWriteFiles, su s = s)
    (hsfix : ∀ s ∈ so.allowReadFolders ++ so.allowWriteFolders
        ++ so.allowReadFiles ++ so.allowWriteFiles, su s = s)
    (hrdirs : ∀ f ∈ so.allowReadFiles, sliceContains so.allowReadFolders (goDir f) = true)
    (hwdirs : ∀ f ∈ so.allowWriteFiles, sliceContains so.allowWriteFolders (goDir f) = true) :
    Landrun.optionsAfterRun o su = o ∧
    (∀ ctxDone profileErr scriptErr p,
      (Firejail.Run fo su ctxDone profileErr scriptErr p).2 = fo) ∧
    SandboxExec.substitutePipesOptions so su = so ∧
    (∀ ctxDone profileErr scriptErr p,
      (SandboxExec.Run so su ctxDone profileErr scriptErr p).2 = so) := by
  have hf := firejail_substituteOptions_fixed fo su hffix
  have hp := sandbox_substitutePipesOptions_fixed so su hsfix
  have hs := sandbox_substituteRunOptions_fixed so su hsfix hrdirs hwdirs
  refine ⟨rfl, ?_, hp, ?_⟩
  · intro ctxDone profileErr scriptErr p
    cases ctxDone
    · rcases profileErr with _ | e <;> rcases scriptErr with _ | e' <;>
        simp [Firejail.Run, hf]
    · rfl
  · intro ctxDone profileErr scriptErr p
    cases ctxDone
    · rcases profileErr with _ | e <;> rcases scriptErr with _ | e' <;>
        simp [SandboxExec.Run, hs]
    · rfl

/-- Witness for C4 at concrete template-free options: after a firejail Run
and a sandbox-exec Run with an identity substitution and contained parent
directories, the stored options are unchanged. -/
theorem C4_amended_stored_options_after_call_witness :
    (Firejail.Run { allowReadFolders := ["/a"] } (fun s => s) false none none
        ⟨none, "", ""⟩).2 = { allowReadFolders := ["/a"] } ∧
    (SandboxExec.Run { allowReadFolders := ["/a"], allowReadFiles := ["/a/f.txt"] }
        (fun s => s) false none none ⟨none, "", ""⟩).2 =
      { allowReadFolders := ["/a"], allowReadFiles := ["/a/f.txt"] } := by
  have h := C4_amended_stored_options_after_call {} { allowReadFolders := ["/a"] }
    { allowReadFolders := ["/a"], allowReadFiles := ["/a/f.txt"] } (fun s => s)
    (fun s _ => rfl) (fun s _ => rfl) (by decide) (by decide)
  exact ⟨h.2.1 false none none ⟨none, "", ""⟩, h.2.2.2 false none none ⟨none, "", ""⟩⟩

/-- Helper: the per-call substitution blocks never touch the stored custom
profile text. -/
theorem substitution_preserves_customProfile (fo : FirejailOptions)
    (so : SandboxExecOptions) (su : Subst) :
    (Firejail.substituteOptions fo su).customProfile = fo.customProfile ∧
    (SandboxExec.substituteRunOptions so su).customProfile = so.customProfile ∧
    (SandboxExec.substitutePipesOptions so su).customProfile = so.customProfile :=
  ⟨rfl, rfl, rfl⟩

/-- C5 counterexample: the custom profile is not a short-circuit taken
before template evaluation — with a non-empty custom profile the firejail
Run call still enters the substitution/render pipeline and rewrites the
stored path lists, so the runner's options after the call differ from
those before it. -/
theorem C5_counterexample_no_short_circuit :
    (Firejail.Run
        { allowReadFolders := ["\x7b\x7b.w\x7d\x7d"], customProfile := "net none" }
        (fun s => if s = "\x7b\x7b.w\x7d\x7d" then "/home/user" else s)
        false none none ⟨none, "", ""⟩).2 ≠
      { allowReadFolders := ["\x7b\x7b.w\x7d\x7d"], customProfile := "net none" } := by
  decide

/-- C5 amended: for the firejail and sandbox-exec backends a non-empty
caller-supplied custom profile text replaces the generated artifact
entirely — the materialized profile equals the custom text and is
independent of every other option field — but the override is applied
inside the always-evaluated template pipeline (per-call substitution still
processes the stored path lists first), not as a short-circuit before
template evaluation. -/
theorem C5_amended_custom_profile_replacement (fo : FirejailOptions)
    (so : SandboxExecOptions) (su : Subst)
    (hf : fo.customProfile ≠ "") (hs : so.customProfile ≠ "") :
    Firejail.runProfile fo su = fo.customProfile ∧
    SandboxExec.runProfile so su = so.customProfile ∧
    SandboxExec.renderProfile (SandboxExec.substitutePipesOptions so su) =
      so.customProfile ∧
    (∀ fo2 : FirejailOptions, fo2.customProfile = fo.customProfile →
      Firejail.runProfile fo2 su = Firejail.runProfile fo su) ∧
    (∀ so2 : SandboxExecOptions, so2.customProfile = so.customProfile →
      SandboxExec.runProfile so2 su = SandboxExec.runProfile so su) := by
  have hf' : (Firejail.substituteOptions fo su).customProfile ≠ "" := hf
  have hs' : (SandboxExec.substituteRunOptions so su).customProfile ≠ "" := hs
  have hp' : (SandboxExec.substitutePipesOptions so su).customProfile ≠ "" := hs
  have cp1 : (Firejail.substituteOptions fo su).customProfile = fo.customProfile := rfl
  have cp2 : (SandboxExec.substituteRunOptions so su).customProfile = so.customProfile := rfl
  have cp3 : (SandboxExec.substitutePipesOptions so su).customProfile = so.customProfile := rfl
  have e1 : Firejail.runProfile fo su = fo.customProfile := by
    simp [Firejail.runProfile, Firejail.renderProfile, hf', cp1, hf]
  have e2 : SandboxExec.runProfile so su = so.customProfile := by
    simp [SandboxExec.runProfile, SandboxExec.renderProfile, hs', cp2, hs]
  have e3 : SandboxExec.renderProfile (SandboxExec.substitutePipesOptions so su) =
      so.customProfile := by
    simp [SandboxExec.renderProfile, hp', cp3, hs]
  refine ⟨e1, e2, e3, ?_, ?_⟩
  · intro fo2 h2
    have hf2 : (Firejail.substituteOptions fo2 su).customProfile ≠ "" := by
      show fo2.customProfile ≠ ""
      rw [h2]; exact hf
    have cp4 : (Firejail.substituteOptions fo2 su).customProfile = fo2.customProfile := rfl
    have hf2' : fo2.customProfile ≠ "" := by rw [h2]; exact hf
    calc Firejail.runProfile fo2 su = fo2.customProfile := by
          simp [Firejail.runProfile, Firejail.renderProfile, hf2, cp4, hf2']
      _ = fo.customProfile := h2
      _ = Firejail.runProfile fo su := e1.symm
  · intro so2 h2
    have hs2 : (SandboxExec.substituteRunOptions so2 su).customProfile ≠ "" := by
      show so2.customProfile ≠ ""
      rw [h2]; exact hs
    have cp5 : (SandboxExec.substituteRunOptions so2 su).customProfile = so2.customProfile := rfl
    have hs2' : so2.customProfile ≠ "" := by rw [h2]; exact hs
    calc SandboxExec.runProfile so2 su = so2.customProfile := by
          simp [SandboxExec.runProfile, SandboxExec.renderProfile, hs2, cp5, hs2']
      _ = so.customProfile := h2
      _ = SandboxExec.runProfile so su := e2.symm

/-- Witness for C5 at a concrete custom profile text. -/
theorem C5_amended_custom_profile_replacement_witness :
    Firejail.runProfile
        { allowReadFolders := ["/a"], customProfile := "net none" } (fun s => s) =
      "net none" ∧
    SandboxExec.runProfile { customProfile := "(version 1)(allow default)" }
        (fun s => s) =
      "(version 1)(allow default)" := by
  have h := C5_amended_custom_profile_replacement
    { allowReadFolders := ["/a"], customProfile := "net none" }
    { customProfile := "(version 1)(allow default)" } (fun s => s)
    (by decide) (by decide)
  exact ⟨h.1, h.2.1⟩

/-- C8 counterexample: the docker backend's option constructor rejects an
empty configuration map — the `image` field is required. -/
theorem C8_counterexample_docker_requires_image :
    NewDockerOptions ([] : RunnerOptions) =
      Except.error "docker runner requires image option" := by
  rfl

/-- C8 amended: constructing validated options from an empty configuration
succeeds without a configuration error for the exec, landrun, firejail and
sandbox-exec backends (no individual field required), but fails for the
docker backend, whose `image` field is required. -/
theorem C8_amended_empty_config_per_backend :
    NewExecOptions ([] : RunnerOptions) = Except.ok { shell := "" } ∧
    NewLandrunOptions ([] : RunnerOptions) = Except.ok {} ∧
    NewFirejailOptions ([] : RunnerOptions) = Except.ok {} ∧
    NewSandboxExecOptions ([] : RunnerOptions) = Except.ok {} ∧
    (∃ e, NewDockerOptions ([] : RunnerOptions) = Except.error e) := by
  exact ⟨rfl, rfl, rfl, rfl, ⟨"docker runner requires image option", rfl⟩⟩

theorem substGuard_map_eq (l : List String) (su : Subst) :
    (if 0 < l.length then l.map su else l) = l.map su := by
  cases l <;> simp

theorem map_map_idem {su : Subst} (hidem : ∀ s, su (su s) = su s) (l : List String) :
    (l.map su).map su = l.map su := by
  induction l with
  | nil => rfl
  | cons a t ih => simp only [List.map_cons, hidem a, ih]

/-- Helper: the firejail substitution block is idempotent when the
substitution function is. -/
theorem firejail_substituteOptions_idem (fo : FirejailOptions) (su : Subst)
    (hidem : ∀ s, su (su s) = su s) :
    Firejail.substituteOptions (Firejail.substituteOptions fo su) su =
      Firejail.substituteOptions fo su := by
  have hm := map_map_idem hidem
  simp [Firejail.substituteOptions, ProcessTemplateListFlexible, substGuard_map_eq,
    hm, List.length_map]

/-- Helper: the sandbox-exec pipes substitution block is idempotent when
the substitution function is. -/
theorem sandbox_substitutePipesOptions_idem (so : SandboxExecOptions) (su : Subst)
    (hidem : ∀ s, su (su s) = su s) :
    SandboxExec.substitutePipesOptions (SandboxExec.substitutePipesOptions so su) su =
      SandboxExec.substitutePipesOptions so su := by
  have hm := map_map_idem hidem
  simp [SandboxExec.substitutePipesOptions, ProcessTemplateListFlexible,
    substGuard_map_eq, hm, List.length_map]

theorem addParentDirs_map_fixed {su : Subst} (A fs : List String)
    (hidem : ∀ s, su (su s) = su s)
    (hfix : ∀ f ∈ fs, su (goDir (su f)) = goDir (su f)) :
    (SandboxExec.addParentDirs (A.map su) (fs.map su)).map su =
      SandboxExec.addParentDirs (A.map su) (fs.map su) := by
  apply map_eq_self_of_fix
  intro x hx
  rcases mem_addParentDirs_cases hx with hxa | ⟨f, hf, rfl⟩
  · rcases List.mem_map.mp hxa with ⟨y, _, rfl⟩
    exact hidem y
  · rcases List.mem_map.mp hf with ⟨g, hg, rfl⟩
    exact hfix g hg

theorem addParentDirs_absorb (A fs : List String) :
    SandboxExec.addParentDirs (SandboxExec.addParentDirs A fs) fs =
      SandboxExec.addParentDirs A fs := by
  apply addParentDirs_eq_of_contained
  intro f hf
  exact sliceContains_iff.mpr (goDir_mem_addParentDirs hf)

/-- Helper: the sandbox-exec Run substitution block is idempotent when the
substitution function is and it fixes the parent directories it derives. -/
theorem sandbox_substituteRunOptions_idem (so : SandboxExecOptions) (su : Subst)
    (hidem : ∀ s, su (su s) = su s)
    (hrd : ∀ f ∈ so.allowReadFiles, su (goDir (su f)) = goDir (su f))
    (hwd : ∀ f ∈ so.allowWriteFiles, su (goDir (su f)) = goDir (su f)) :
    SandboxExec.substituteRunOptions (SandboxExec.substituteRunOptions so su) su =
      SandboxExec.substituteRunOptions so su := by
  have hm := map_map_idem hidem
  have hr1 := addParentDirs_map_fixed so.allowReadFolders so.allowReadFiles hidem hrd
  have hw1 := addParentDirs_map_fixed so.allowWriteFolders so.allowWriteFiles hidem hwd
  by_cases hnr : 0 < so.allowReadFiles.length <;>
    by_cases hnw : 0 < so.allowWriteFiles.length <;>
    simp [SandboxExec.substituteRunOptions, ProcessTemplateListFlexible,
      substGuard_map_eq, hm, hr1, hw1, addParentDirs_absorb, List.length_map,
      hnr, hnw]

/-- C9 counterexample: two consecutive firejail executions with the same
substitution context need not produce the same profile text — the first
call overwrites the stored lists with their substituted forms, and a
non-idempotent context (one whose resolved value itself reads as a
template placeholder; entries written with escaped braces, mirroring a Go
context where `a` resolves to the text of placeholder `b` and `b` to a
final path) yields a different second profile. -/
theorem C9_counterexample_firejail_second_profile_differs :
    Firejail.runProfile
        ((Firejail.Run { allowReadFolders := ["\x7b\x7b.a\x7d\x7d"] }
            (fun s => if s = "\x7b\x7b.a\x7d\x7d" then "\x7b\x7b.b\x7d\x7d"
                      else if s = "\x7b\x7b.b\x7d\x7d" then "/final" else s)
            false none none ⟨none, "", ""⟩).2)
        (fun s => if s = "\x7b\x7b.a\x7d\x7d" then "\x7b\x7b.b\x7d\x7d"
                  else if s = "\x7b\x7b.b\x7d\x7d" then "/final" else s) ≠
      Firejail.runProfile { allowReadFolders := ["\x7b\x7b.a\x7d\x7d"] }
        (fun s => if s = "\x7b\x7b.a\x7d\x7d" then "\x7b\x7b.b\x7d\x7d"
                  else if s = "\x7b\x7b.b\x7d\x7d" then "/final" else s) := by
  decide

/-- C9 amended: compilation is a pure function of the stored options and
the substitution context; the kernel-restriction backend compiles the
identical ordered rule list on two consecutive executions (its options
are never rewritten), while the firejail and sandbox-exec backends render
identical profile texts on consecutive executions whenever the per-entry
substitution is idempotent (and, for sandbox-exec batch runs, also fixes
the derived parent directories) — the first call having overwritten the
stored path lists with their substituted forms. -/
theorem C9_amended_idempotent_compilation (o : LandrunOptions)
    (fo : FirejailOptions) (so : SandboxExecOptions) (su : Subst) (p : ProcOutcome)
    (hidem : ∀ s, su (su s) = su s)
    (hrd : ∀ f ∈ so.allowReadFiles, su (goDir (su f)) = goDir (su f))
    (hwd : ∀ f ∈ so.allowWriteFiles, su (goDir (su f)) = goDir (su f)) :
    Landrun.buildLandlockRules (Landrun.optionsAfterRun o su) su =
      Landrun.buildLandlockRules o su ∧
    Firejail.runProfile ((Firejail.Run fo su false none none p).2) su =
      Firejail.runProfile fo su ∧
    SandboxExec.renderProfile
        (SandboxExec.substitutePipesOptions (SandboxExec.substitutePipesOptions so su) su) =
      SandboxExec.renderProfile (SandboxExec.substitutePipesOptions so su) ∧
    SandboxExec.runProfile ((SandboxExec.Run so su false none none p).2) su =
      SandboxExec.runProfile so su := by
  refine ⟨rfl, ?_, ?_, ?_⟩
  · have h2 : (Firejail.Run fo su false none none p).2 =
        Firejail.substituteOptions fo su := rfl
    rw [h2]
    unfold Firejail.runProfile
    rw [firejail_substituteOptions_idem fo su hidem]
  · rw [sandbox_substitutePipesOptions_idem so su hidem]
  · have h2 : (SandboxExec.Run so su false none none p).2 =
        SandboxExec.substituteRunOptions so su := rfl
    rw [h2]
    unfold SandboxExec.runProfile
    rw [sandbox_substituteRunOptions_idem so su hidem hrd hwd]

/-- Witness for C9 at an identity substitution: the second firejail
execution renders the same profile as the first. -/
theorem C9_amended_idempotent_compilation_witness :
    Firejail.runProfile
        ((Firejail.Run { allowReadFolders := ["/a"] } (fun s => s)
            false none none ⟨none, "", ""⟩).2) (fun s => s) =
      Firejail.runProfile { allowReadFolders := ["/a"] } (fun s => s) := by
  exact (C9_amended_idempotent_compilation {} { allowReadFolders := ["/a"] } {}
    (fun s => s) ⟨none, "", ""⟩ (fun s => rfl)
    (fun f hf => absurd hf (List.not_mem_nil f))
    (fun f hf => absurd hf (List.not_mem_nil f))).2.1
